import Mathlib

/-!
Verification of the vndbjs-core client library (`src/Connection.js` and the
`Vndb` dispatcher/pool module) against its natural-language specification.

Protocol data (JS strings) is embedded as `List Char`; machine-level framing
is over single characters, with the End-of-Transmission terminator `0x04`.
-/

set_option autoImplicit false

namespace Noshiro

/-- Protocol data: a JS string, embedded as a list of characters. -/
abbrev Str := List Char

/-- The End of Transmission character used by VNDB (`this.eot = '\x04'`). -/
def eotChar : Char := Char.ofNat 4

/-- The terminator as a one-character string, as stored in `Connection.eot`. -/
def eot : Str := [eotChar]

/-- Rejection message `NO_CONNECTION` from `src/Connection.js`. -/
def NO_CONNECTION : String := "No connection to destroy"

/-- Rejection message `UNAUTHORIZED_CONNECTION` from `src/Connection.js`. -/
def UNAUTHORIZED_CONNECTION : String := "Secure connection could not be established"

namespace Connection

/-! ### connect (src/Connection.js lines 39-58) -/

/-- Outcome of the TLS handshake attempt made by `tls.connect`: either the
transport errors out before the secure-connect callback runs, or the
handshake completes with the socket's `authorized` flag set or cleared. -/
inductive HandshakeOutcome where
  | transportError (cause : String)
  | completed (authorized : Bool)
deriving DecidableEq

/-- How the promise returned by `connect` settles: resolved with a value,
rejected with one of the constant messages, or rejected with the underlying
transport error object. -/
inductive ConnectResult where
  | resolved (v : String)
  | rejectedMsg (msg : String)
  | rejectedErr (cause : String)
deriving DecidableEq

/-- `Connection.connect`: on a completed handshake, resolve with the string
literal when `socket.authorized` holds and reject with
`UNAUTHORIZED_CONNECTION` otherwise; an `error` event during the handshake
rejects with the underlying error. -/
def connect : HandshakeOutcome → ConnectResult
  | .transportError cause => .rejectedErr cause
  | .completed true => .resolved "ok"
  | .completed false => .rejectedMsg UNAUTHORIZED_CONNECTION

/-! ### write and read (src/Connection.js lines 112-138) -/

/-- `Connection.write`: the string handed to `socket.write`, namely the
message followed by the terminator. -/
def write (message : Str) : Str := message ++ eot

/-- Whether the accumulated data ends with the terminator
(`chunk.endsWith(this.eot)` for the one-character terminator). -/
def endsWithEot (s : Str) : Bool := s.getLast? == some eotChar

/-- The `data`-event loop of `Connection.read`: append each incoming chunk to
the accumulator and resolve with the whole accumulated string as soon as it
ends with the terminator; once resolved, the listeners are removed, so later
chunks are not consumed. -/
def readAccum : Str → List Str → Option Str
  | _, [] => none
  | acc, c :: cs =>
    if endsWithEot (acc ++ c) then some (acc ++ c) else readAccum (acc ++ c) cs

/-- `Connection.read` applied to the sequence of incoming data chunks,
starting from the empty accumulator (`let chunk = ''`). -/
def read (chunks : List Str) : Option Str := readAccum [] chunks

/-! ### login (src/Connection.js lines 82-106, 141-146) -/

/-- The acknowledgment frame `login` compares the response against:
the template string built from the literal and the terminator. -/
def okFrame : Str := ['o', 'k'] ++ eot

/-- How `login` settles once `read` has produced a response frame: resolve
with the frame when it is exactly the acknowledgment, reject with the raw
frame otherwise. -/
def loginHandleResponse (response : Str) : Except Str Str :=
  if response = okFrame then .ok response else .error response

/-- A JavaScript value as far as `JSON.stringify` field elision is concerned. -/
inductive JSVal where
  | undef
  | null
  | num (n : Int)
  | str (s : Str)
deriving DecidableEq

/-- The `replacer` function from `src/Connection.js`: maps `null` to
`undefined` and leaves every other value unchanged. -/
def replacer (value : JSVal) : JSVal :=
  match value with
  | .null => .undef
  | v => v

/-- Whether `JSON.stringify` keeps a field with this value: fields whose
value is `undefined` are omitted from the serialized object. -/
def isDefined : JSVal → Bool
  | .undef => false
  | _ => true

/-- The field list `JSON.stringify(data, replacer)` serializes: the replacer
is applied to each value and fields whose resulting value is `undefined`
are dropped. -/
def stringifyFields (fields : List (String × JSVal)) : List (String × JSVal) :=
  (fields.map (fun p => (p.1, replacer p.2))).filter (fun p => isDefined p.2)

/-- The `data` object built inside `login`, in property order. -/
def loginData (socketID clientver : Str) (username password : JSVal) :
    List (String × JSVal) :=
  [("protocol", JSVal.num 1),
   ("client", JSVal.str socketID),
   ("clientver", JSVal.str clientver),
   ("username", username),
   ("password", password)]

/-- The serialized login payload: the fields of `data` that survive
`JSON.stringify(data, replacer)`. -/
def loginPayload (socketID clientver : Str) (username password : JSVal) :
    List (String × JSVal) :=
  stringifyFields (loginData socketID clientver username password)

/-! ### destroy (src/Connection.js lines 64-74) -/

/-- How the promise returned by `destroy` settles: rejected (with the given
message) when there is no socket, resolved once the peer's `end` event
arrives, and otherwise still pending. -/
inductive DestroyOutcome where
  | resolvedOk
  | rejected (msg : String)
  | pending
deriving DecidableEq

/-- `Connection.destroy`: with no socket ever established the promise is
rejected with `NO_CONNECTION` (the subsequent listener registration throws,
but the promise is already settled); with a socket, `socket.end()` is called
and the promise resolves with the literal only when the peer's `end`
acknowledgment has been received. -/
def destroy (socket : Option Unit) (endAcked : Bool) : DestroyOutcome :=
  match socket with
  | none => .rejected NO_CONNECTION
  | some _ => if endAcked then .resolvedOk else .pending

/-- Whether `destroy` reaches the `socket.end()` call, i.e. requests a
graceful close of the transport. -/
def destroyRequestsClose (socket : Option Unit) : Bool := socket.isSome

end Connection

end Noshiro

namespace Noshiro

open Connection

/-- Claim C3: `connect` succeeds only if the TLS handshake completes and
certificate verification passes (it resolves exactly on an authorized
completed handshake, with the literal value); a completed but unauthorized
handshake rejects with the `UNAUTHORIZED_CONNECTION` message; a transport
error during the handshake rejects with the underlying cause. -/
theorem C3_connect_handshake :
    (∀ h v, connect h = .resolved v ↔ (h = .completed true ∧ v = "ok")) ∧
    connect (.completed false) = .rejectedMsg UNAUTHORIZED_CONNECTION ∧
    (∀ cause, connect (.transportError cause) = .rejectedErr cause) := by
  refine ⟨?_, rfl, fun _ => rfl⟩
  intro h v
  cases h with
  | transportError cause => simp [connect]
  | completed a => cases a <;> simp [connect, eq_comm]

/-- Claim C4: once `read` yields a response frame, `login` resolves exactly
when the frame is the literal acknowledgment followed by the terminator,
and on any other frame it rejects with exactly the raw frame. -/
theorem C4_login_ack :
    ∀ response : Str,
      (loginHandleResponse response = .ok response ∨
        loginHandleResponse response = .error response) ∧
      (loginHandleResponse response = .ok response ↔
        response = ['o', 'k'] ++ eot) := by
  intro response
  by_cases h : response = okFrame
  · subst h
    simp [loginHandleResponse, okFrame]
  · constructor
    · right
      simp [loginHandleResponse, h]
    · constructor
      · intro hok
        simp [loginHandleResponse, h] at hok
      · intro hr
        exact absurd hr (by simpa [okFrame] using h)

/-- Claim C5: the serialized login payload always contains the `protocol`,
`client` and `clientver` fields with their values from the source, contains
the `username` and `password` fields exactly when the corresponding value is
present (neither `undefined` nor `null`), and never contains a field whose
serialized value is `null` (or `undefined`). -/
theorem C5_login_payload :
    ∀ (socketID clientver : Str) (username password : JSVal),
      ("protocol", JSVal.num 1) ∈ loginPayload socketID clientver username password ∧
      ("client", JSVal.str socketID) ∈ loginPayload socketID clientver username password ∧
      ("clientver", JSVal.str clientver) ∈ loginPayload socketID clientver username password ∧
      ("username" ∈ (loginPayload socketID clientver username password).map Prod.fst ↔
        (username ≠ JSVal.undef ∧ username ≠ JSVal.null)) ∧
      ("password" ∈ (loginPayload socketID clientver username password).map Prod.fst ↔
        (password ≠ JSVal.undef ∧ password ≠ JSVal.null)) ∧
      (∀ kv ∈ loginPayload socketID clientver username password,
        kv.2 ≠ JSVal.null ∧ kv.2 ≠ JSVal.undef) := by
  intro socketID clientver username password
  cases username <;> cases password <;>
    simp [loginPayload, loginData, stringifyFields, replacer, isDefined]

/-- Closed witness for claim C5 at a concrete payload. -/
theorem C5_login_payload_witness :
    ("protocol", JSVal.num 1) ∈ loginPayload ['i', 'd'] ['v'] JSVal.null (JSVal.str ['p']) ∧
    (("username" ∈ (loginPayload ['i', 'd'] ['v'] JSVal.null (JSVal.str ['p'])).map Prod.fst) ↔
      (JSVal.null ≠ JSVal.undef ∧ JSVal.null ≠ JSVal.null)) :=
  ⟨(C5_login_payload ['i', 'd'] ['v'] JSVal.null (JSVal.str ['p'])).1,
   (C5_login_payload ['i', 'd'] ['v'] JSVal.null (JSVal.str ['p'])).2.2.2.1⟩

/-- If the data loop of `read` resolves, the resolved frame ends with the
terminator and is the concatenation of an initial run of chunks, the first
one at whose boundary the accumulated data ends with the terminator. -/
theorem readAccum_some (cs : List Str) :
    ∀ (acc s : Str), readAccum acc cs = some s →
      endsWithEot s = true ∧
      ∃ k, 0 < k ∧ k ≤ cs.length ∧ s = acc ++ (cs.take k).flatten ∧
        ∀ j, 0 < j → j < k → endsWithEot (acc ++ (cs.take j).flatten) = false := by
  induction cs with
  | nil =>
    intro acc s h
    simp [readAccum] at h
  | cons c cs ih =>
    intro acc s h
    rw [readAccum] at h
    cases hend : endsWithEot (acc ++ c) with
    | true =>
      rw [hend] at h
      simp only [if_true] at h
      obtain rfl : acc ++ c = s := by simpa using h
      refine ⟨hend, 1, Nat.one_pos, by simp, by simp, ?_⟩
      intro j hj0 hj1
      omega
    | false =>
      rw [hend] at h
      simp only [Bool.false_eq_true, if_false] at h
      obtain ⟨hE, k, hk0, hkle, hs, hmin⟩ := ih (acc ++ c) s h
      refine ⟨hE, k + 1, Nat.succ_pos k, by simpa using Nat.succ_le_succ hkle, ?_, ?_⟩
      · rw [hs]
        simp [List.take_succ_cons]
      · intro j hj0 hjk
        cases j with
        | zero => omega
        | succ j' =>
          cases j' with
          | zero => simpa using hend
          | succ j'' =>
            have hm := hmin (j'' + 1) (Nat.succ_pos _) (by omega)
            simpa [List.take_succ_cons] using hm

/-- The data loop of `read` resolves exactly when the accumulated data ends
with the terminator at some chunk boundary. -/
theorem readAccum_isSome (cs : List Str) :
    ∀ acc : Str, (readAccum acc cs).isSome = true ↔
      ∃ k, 0 < k ∧ k ≤ cs.length ∧ endsWithEot (acc ++ (cs.take k).flatten) = true := by
  induction cs with
  | nil =>
    intro acc
    constructor
    · intro h
      simp [readAccum] at h
    · rintro ⟨k, hk0, hkle, -⟩
      exact absurd (lt_of_lt_of_le hk0 hkle) (by simp)
  | cons c cs ih =>
    intro acc
    rw [readAccum]
    cases hend : endsWithEot (acc ++ c) with
    | true =>
      simp only [if_true]
      constructor
      · intro _
        exact ⟨1, Nat.one_pos, by simp, by simpa using hend⟩
      · intro _
        rfl
    | false =>
      simp only [Bool.false_eq_true, if_false]
      rw [ih (acc ++ c)]
      constructor
      · rintro ⟨k, hk0, hkle, hE⟩
        refine ⟨k + 1, Nat.succ_pos k, by simpa using Nat.succ_le_succ hkle, ?_⟩
        simpa [List.take_succ_cons] using hE
      · rintro ⟨k, hk0, hkle, hE⟩
        cases k with
        | zero => omega
        | succ k' =>
          cases k' with
          | zero =>
            exfalso
            rw [show endsWithEot (acc ++ ((c :: cs).take 1).flatten) = false by
              simpa using hend] at hE
            exact Bool.false_ne_true hE
          | succ k'' =>
            refine ⟨k'' + 1, Nat.succ_pos _, by simpa using hkle, ?_⟩
            simpa [List.take_succ_cons] using hE

/-- Claim C6: `write` transmits exactly the message followed by the single
terminator byte `0x04`, and `read` resolves exactly when the accumulated
data ends with the terminator byte, resolving with the full accumulated
frame (terminator included), at the first chunk boundary where this holds. -/
theorem C6_framing :
    (∀ message : Str, write message = message ++ [Char.ofNat 4]) ∧
    (∀ chunks : List Str,
      ((read chunks).isSome = true ↔
        ∃ k, 0 < k ∧ k ≤ chunks.length ∧ endsWithEot ((chunks.take k).flatten) = true)) ∧
    (∀ chunks s, read chunks = some s →
      endsWithEot s = true ∧
      ∃ k, 0 < k ∧ k ≤ chunks.length ∧ s = (chunks.take k).flatten ∧
        ∀ j, 0 < j → j < k → endsWithEot ((chunks.take j).flatten) = false) := by
  refine ⟨fun _ => rfl, ?_, ?_⟩
  · intro chunks
    simpa using readAccum_isSome chunks []
  · intro chunks s h
    simpa using readAccum_some chunks [] s h

/-- Closed witness for claim C6: a two-chunk exchange resolves with the full
frame, which ends with the terminator. -/
theorem C6_framing_witness :
    endsWithEot (['v', 'n', eotChar] : Str) = true ∧
    write ['o', 'k'] = ['o', 'k', Char.ofNat 4] := by
  constructor
  · exact (C6_framing.2.2 [['v', 'n'], [eotChar]] ['v', 'n', eotChar] (by decide)).1
  · exact C6_framing.1 ['o', 'k']

/-- Claim C7: `destroy` rejects with the `NO_CONNECTION` error exactly when
no transport was ever established; otherwise it requests a graceful close of
the transport and resolves exactly when the peer's end acknowledgment has
been received. -/
theorem C7_destroy :
    ∀ (socket : Option Unit) (endAcked : Bool),
      (destroy socket endAcked = .rejected NO_CONNECTION ↔ socket = none) ∧
      (destroy socket endAcked = .resolvedOk ↔ (socket ≠ none ∧ endAcked = true)) ∧
      (destroyRequestsClose socket = true ↔ socket ≠ none) := by
  intro socket endAcked
  cases socket <;> cases endAcked <;>
    simp [destroy, destroyRequestsClose]

end Noshiro

namespace Noshiro

namespace Vndb

/-! ### Settings and defaults (Vndb module lines 7-14, 40-46) -/

/-- The settings object supplied to the `Vndb` constructor: each key may be
absent (`none`); the credential keys, when supplied, may carry `null`. -/
structure SuppliedSettings where
  rateLimit : Option Nat
  rateInterval : Option Nat
  password : Option (Option Str)
  poolMin : Option Nat
  poolTimeout : Option Nat
  username : Option (Option Str)
deriving DecidableEq

/-- The settings after defaulting: every key present; the credentials may
still be null (`none`). -/
structure Settings where
  rateLimit : Nat
  rateInterval : Nat
  password : Option Str
  poolMin : Nat
  poolTimeout : Nat
  username : Option Str
deriving DecidableEq

/-- The `defaultSettings` object of the Vndb module. -/
def defaultSettings : Settings :=
  { rateLimit := 20
    rateInterval := 60000
    password := none
    poolMin := 1
    poolTimeout := 30000
    username := none }

/-- `defaults(settings, defaultSettings)` (the defaults-shallow dependency):
each key absent from the supplied object is filled from `defaultSettings`,
and each key supplied by the caller is kept unchanged. -/
def applyDefaults (s : SuppliedSettings) : Settings :=
  { rateLimit := s.rateLimit.getD defaultSettings.rateLimit
    rateInterval := s.rateInterval.getD defaultSettings.rateInterval
    password := s.password.getD defaultSettings.password
    poolMin := s.poolMin.getD defaultSettings.poolMin
    poolTimeout := s.poolTimeout.getD defaultSettings.poolTimeout
    username := s.username.getD defaultSettings.username }

/-! ### Pool configuration and pool model (Vndb module lines 47-82) -/

/-- The shape of `this.poolConfig`. -/
structure PoolConfig where
  min : Nat
  max : Nat
  evictionRunIntervalMillis : Nat
  numTestsPerRun : Nat
  softIdleTimeoutMillis : Nat
  idleTimeoutMillis : Nat
  acquireTimeoutMillis : Nat
deriving DecidableEq

/-- The pool configuration object built in the `Vndb` constructor: `max` is
the literal `10` (VNDB permits a maximum of 10 connections per IP address),
independent of the settings. -/
def poolConfig (settings : Settings) : PoolConfig :=
  { min := settings.poolMin
    max := 10
    evictionRunIntervalMillis := 1000
    numTestsPerRun := 10
    softIdleTimeoutMillis := settings.poolTimeout
    idleTimeoutMillis := 0
    acquireTimeoutMillis := 2000 }

/-- `this.limiter = new RateLimiter(this.rateLimit, this.rateInterval)`:
the capacity and interval handed to the rate limiter. -/
def limiter (settings : Settings) : Nat × Nat :=
  (settings.rateLimit, settings.rateInterval)

/-- Pool state: the idle and in-use sets of session identifiers held by the
pool created with `genericPool.createPool`. -/
structure PoolState where
  idle : Finset Nat
  inUse : Finset Nat
deriving DecidableEq

/-- The pool operations exercised through the pool dependency
(generic-pool), with the semantics it documents for the configuration built
in `poolConfig` (no `testOnBorrow` and no validation hook are configured):
`acquire` hands out an idle session or creates a new one only below the
maximum, `release` returns a checked-out session to the idle set without
validating or destroying it, and the eviction sweep removes an idle
session. -/
inductive PoolOp where
  | acquireNew (s : Nat)
  | acquireIdle (s : Nat)
  | release (s : Nat)
  | evict (s : Nat)
deriving DecidableEq

/-- One pool transition; an operation whose guard does not hold leaves the
state unchanged. -/
def poolStep (maxSize : Nat) (st : PoolState) : PoolOp → PoolState
  | .acquireNew s =>
    if s ∉ st.idle ∧ s ∉ st.inUse ∧ st.idle.card + st.inUse.card < maxSize then
      { idle := st.idle, inUse := insert s st.inUse }
    else st
  | .acquireIdle s =>
    if s ∈ st.idle then
      { idle := st.idle.erase s, inUse := insert s st.inUse }
    else st
  | .release s =>
    if s ∈ st.inUse then
      { idle := insert s st.idle, inUse := st.inUse.erase s }
    else st
  | .evict s =>
    if s ∈ st.idle then
      { idle := st.idle.erase s, inUse := st.inUse }
    else st

/-- Running a sequence of pool operations from the empty pool. -/
def runPool (maxSize : Nat) (ops : List PoolOp) : PoolState :=
  ops.foldl (poolStep maxSize) { idle := ∅, inUse := ∅ }

/-- The pool size and disjointness invariant. -/
def poolInv (maxSize : Nat) (st : PoolState) : Prop :=
  Disjoint st.idle st.inUse ∧ st.idle.card + st.inUse.card ≤ maxSize

/-! ### send (Vndb module lines 89-115) -/

/-- Outcome of the write-then-read exchange inside the try block of
`send`. -/
inductive ExchangeOutcome where
  | success (response : Str)
  | failure (err : Str)
deriving DecidableEq

/-- How the promise returned by `send` settles. -/
inductive SendResult where
  | resolved (response : Str)
  | rejected (err : Str)
deriving DecidableEq

/-- The body of `send` once a session has been acquired from the pool:
`try { write; read; resolve } catch { reject } finally { pool.release }`.
The value is the settlement of `send` together with the pool operations the
body issues; the `finally` block issues `release` on the success path and
on the failure path alike, and nothing else is ever issued (in particular
no destroy). -/
def sendAfterAcquire (s : Nat) (outcome : ExchangeOutcome) :
    SendResult × List PoolOp :=
  match outcome with
  | .success response => (.resolved response, [PoolOp.release s])
  | .failure err => (.rejected err, [PoolOp.release s])

end Vndb

end Noshiro

namespace Noshiro

open Vndb

/-- Each pool transition preserves the pool invariant. -/
theorem poolStep_inv (maxSize : Nat) (st : PoolState) (op : PoolOp)
    (h : poolInv maxSize st) : poolInv maxSize (poolStep maxSize st op) := by
  obtain ⟨hdisj, hcard⟩ := h
  cases op with
  | acquireNew s =>
    by_cases hg : s ∉ st.idle ∧ s ∉ st.inUse ∧ st.idle.card + st.inUse.card < maxSize
    · obtain ⟨hi, hu, hlt⟩ := hg
      rw [poolStep, if_pos ⟨hi, hu, hlt⟩]
      refine ⟨Finset.disjoint_insert_right.2 ⟨hi, hdisj⟩, ?_⟩
      show st.idle.card + (insert s st.inUse).card ≤ maxSize
      rw [Finset.card_insert_of_not_mem hu]
      omega
    · rw [poolStep, if_neg hg]
      exact ⟨hdisj, hcard⟩
  | acquireIdle s =>
    by_cases hg : s ∈ st.idle
    · rw [poolStep, if_pos hg]
      have hu : s ∉ st.inUse := Finset.disjoint_left.1 hdisj hg
      have hpos : 1 ≤ st.idle.card := Finset.card_pos.2 ⟨s, hg⟩
      refine ⟨Finset.disjoint_insert_right.2 ⟨Finset.not_mem_erase s _,
        Finset.disjoint_of_subset_left (Finset.erase_subset _ _) hdisj⟩, ?_⟩
      show (st.idle.erase s).card + (insert s st.inUse).card ≤ maxSize
      rw [Finset.card_insert_of_not_mem hu, Finset.card_erase_of_mem hg]
      omega
    · rw [poolStep, if_neg hg]
      exact ⟨hdisj, hcard⟩
  | release s =>
    by_cases hg : s ∈ st.inUse
    · rw [poolStep, if_pos hg]
      have hi : s ∉ st.idle := Finset.disjoint_right.1 hdisj hg
      have hpos : 1 ≤ st.inUse.card := Finset.card_pos.2 ⟨s, hg⟩
      refine ⟨Finset.disjoint_insert_left.2 ⟨Finset.not_mem_erase s _,
        Finset.disjoint_of_subset_right (Finset.erase_subset _ _) hdisj⟩, ?_⟩
      show (insert s st.idle).card + (st.inUse.erase s).card ≤ maxSize
      rw [Finset.card_insert_of_not_mem hi, Finset.card_erase_of_mem hg]
      omega
    · rw [poolStep, if_neg hg]
      exact ⟨hdisj, hcard⟩
  | evict s =>
    by_cases hg : s ∈ st.idle
    · rw [poolStep, if_pos hg]
      refine ⟨Finset.disjoint_of_subset_left (Finset.erase_subset _ _) hdisj, ?_⟩
      show (st.idle.erase s).card + st.inUse.card ≤ maxSize
      have := Finset.card_le_card (Finset.erase_subset s st.idle)
      omega
    · rw [poolStep, if_neg hg]
      exact ⟨hdisj, hcard⟩

/-- The pool invariant holds after any sequence of operations from the
empty pool. -/
theorem runPool_inv (maxSize : Nat) (ops : List PoolOp) :
    poolInv maxSize (runPool maxSize ops) := by
  have h : ∀ st, poolInv maxSize st →
      poolInv maxSize (ops.foldl (poolStep maxSize) st) := by
    induction ops with
    | nil => exact fun st h => h
    | cons op ops ih => exact fun st h => ih _ (poolStep_inv maxSize st op h)
  exact h _ ⟨Finset.disjoint_empty_left _, by simp⟩

/-- Claim C8: the pool maximum is the fixed constant 10 for every settings
object, and for every operation sequence the idle and in-use sets stay
disjoint with their combined size at most that maximum. -/
theorem C8_pool_invariant :
    ∀ (settings : Settings) (ops : List PoolOp),
      (poolConfig settings).max = 10 ∧
      Disjoint (runPool (poolConfig settings).max ops).idle
        (runPool (poolConfig settings).max ops).inUse ∧
      (runPool (poolConfig settings).max ops).idle.card +
        (runPool (poolConfig settings).max ops).inUse.card ≤ 10 := by
  intro settings ops
  have h := runPool_inv (poolConfig settings).max ops
  exact ⟨rfl, h.1, h.2⟩

/-- Claim C1: once a session has been acquired, `send` releases it back to
the pool on every exit path: the pool operations issued by the body are
exactly one `release` of that session, both when the exchange resolves with
a response (and `send` resolves with it) and when it fails with an error
(and `send` rejects with it). -/
theorem C1_send_always_releases :
    ∀ (s : Nat) (response err : Str),
      (sendAfterAcquire s (.success response)).2 = [PoolOp.release s] ∧
      (sendAfterAcquire s (.failure err)).2 = [PoolOp.release s] ∧
      (sendAfterAcquire s (.success response)).1 = .resolved response ∧
      (sendAfterAcquire s (.failure err)).1 = .rejected err :=
  fun _ _ _ => ⟨rfl, rfl, rfl, rfl⟩

/-- Claim C2 fails on the code: a session that errors during the exchange
is released by the `finally` block, and the pool's `release` (which, as
configured, validates nothing) returns it to the idle set. Concretely,
session `0` is created and checked out, errors during `read`, and is
present in the idle set afterward. -/
theorem C2_counterexample :
    0 ∈ (((sendAfterAcquire 0 (.failure ['e'])).2).foldl (poolStep 10)
      (runPool 10 [PoolOp.acquireNew 0])).idle := by
  decide

/-- Claim C2 amended: a session that errors during read or write while
checked out by `send` is released back to the pool unconditionally and is
present in the pool's idle set afterward; the code has no destroy-on-error
path. -/
theorem C2_errored_session_returned_to_idle :
    ∀ (s : Nat) (err : Str) (maxSize : Nat) (st : PoolState),
      s ∈ st.inUse →
      s ∈ (((sendAfterAcquire s (.failure err)).2).foldl
        (poolStep maxSize) st).idle := by
  intro s err maxSize st hmem
  show s ∈ (poolStep maxSize st (PoolOp.release s)).idle
  rw [poolStep, if_pos hmem]
  exact Finset.mem_insert_self s st.idle

/-- Closed witness for the amended claim C2. -/
theorem C2_errored_session_returned_to_idle_witness :
    0 ∈ (PoolState.mk ∅ {0}).inUse ∧
    0 ∈ (((sendAfterAcquire 0 (.failure ['e'])).2).foldl (poolStep 10)
      (PoolState.mk ∅ {0})).idle :=
  ⟨by decide,
   C2_errored_session_returned_to_idle 0 ['e'] 10 (PoolState.mk ∅ {0}) (by decide)⟩

/-- Claim C10: fields omitted from the supplied settings object are filled
with the defaults (`rateLimit` 20, `rateInterval` 60000 ms, `username`
null, `password` null, `poolMin` 1, `poolTimeout` 30000 ms), and fields
explicitly supplied by the caller are kept unchanged. -/
theorem C10_default_settings :
    ∀ s : SuppliedSettings,
      (s.rateLimit = none → (applyDefaults s).rateLimit = 20) ∧
      (∀ v, s.rateLimit = some v → (applyDefaults s).rateLimit = v) ∧
      (s.rateInterval = none → (applyDefaults s).rateInterval = 60000) ∧
      (∀ v, s.rateInterval = some v → (applyDefaults s).rateInterval = v) ∧
      (s.username = none → (applyDefaults s).username = none) ∧
      (∀ v, s.username = some v → (applyDefaults s).username = v) ∧
      (s.password = none → (applyDefaults s).password = none) ∧
      (∀ v, s.password = some v → (applyDefaults s).password = v) ∧
      (s.poolMin = none → (applyDefaults s).poolMin = 1) ∧
      (∀ v, s.poolMin = some v → (applyDefaults s).poolMin = v) ∧
      (s.poolTimeout = none → (applyDefaults s).poolTimeout = 30000) ∧
      (∀ v, s.poolTimeout = some v → (applyDefaults s).poolTimeout = v) := by
  intro s
  refine ⟨?_, ?_, ?_, ?_, ?_, ?_, ?_, ?_, ?_, ?_, ?_, ?_⟩ <;>
    first
      | (intro h; simp [applyDefaults, defaultSettings, h])
      | (intro v h; simp [applyDefaults, defaultSettings, h])

/-- Closed witness for claim C10: a settings object with `rateLimit`,
`username` and `poolTimeout` omitted and the other fields supplied. -/
theorem C10_default_settings_witness :
    (applyDefaults (SuppliedSettings.mk none (some 5) (some none) (some 2)
      none (some (some ['u']))) ).rateLimit = 20 ∧
    (applyDefaults (SuppliedSettings.mk none (some 5) (some none) (some 2)
      none (some (some ['u']))) ).rateInterval = 5 ∧
    (applyDefaults (SuppliedSettings.mk none (some 5) (some none) (some 2)
      none (some (some ['u']))) ).username = some ['u'] ∧
    (applyDefaults (SuppliedSettings.mk none (some 5) (some none) (some 2)
      none (some (some ['u']))) ).password = none :=
  ⟨(C10_default_settings _).1 rfl,
   (C10_default_settings _).2.2.2.1 5 rfl,
   (C10_default_settings _).2.2.2.2.2.1 (some ['u']) rfl,
   (C10_default_settings _).2.2.2.2.2.2.2.1 none rfl⟩

/-- Modelled from the spec: the RateLimiter component (spec sections 2 and
4.2). Its implementation — the npm `limiter` dependency — is not among the
repository sources; only its construction (`Vndb.limiter`) and the
`removeTokens` call in `send` are. Following the spec's words, the limiter
is a FIFO token gate that admits at most `capacity` operations per rolling
window of length `interval` and grants pending requests in arrival order:
request `i` (with `arrival i` its arrival time, indices in arrival order)
is granted at the earliest time that is no earlier than its own arrival, no
earlier than any previous grant, and at least `interval` after the grant
`capacity` positions back. -/
def admitTime (capacity interval : Nat) (arrival : Nat → Nat) : Nat → Nat
  | 0 => arrival 0
  | i + 1 =>
    if h : 0 < capacity ∧ capacity ≤ i + 1 then
      max (arrival (i + 1))
        (max (admitTime capacity interval arrival i)
          (admitTime capacity interval arrival (i + 1 - capacity) + interval))
    else
      max (arrival (i + 1)) (admitTime capacity interval arrival i)
termination_by i => i
decreasing_by
  · omega
  · omega
  · omega

/-- Grant times never decrease along the queue. -/
theorem admitTime_le_succ (capacity interval : Nat) (arrival : Nat → Nat)
    (i : Nat) :
    admitTime capacity interval arrival i ≤
      admitTime capacity interval arrival (i + 1) := by
  rw [admitTime]
  split
  · exact le_trans (le_max_left _ _) (le_max_right _ _)
  · exact le_max_right _ _

/-- Grants are issued in arrival (queue) order. -/
theorem admitTime_mono (capacity interval : Nat) (arrival : Nat → Nat) :
    Monotone (admitTime capacity interval arrival) :=
  monotone_nat_of_le_succ (admitTime_le_succ capacity interval arrival)

/-- No request is granted before it arrives. -/
theorem arrival_le_admitTime (capacity interval : Nat) (arrival : Nat → Nat)
    (i : Nat) : arrival i ≤ admitTime capacity interval arrival i := by
  cases i with
  | zero => rw [admitTime]
  | succ i =>
    rw [admitTime]
    split
    · exact le_max_left _ _
    · exact le_max_left _ _

/-- Consecutive grants `capacity` positions apart are at least `interval`
apart. -/
theorem admitTime_add_capacity (capacity interval : Nat) (arrival : Nat → Nat)
    (hC : 0 < capacity) (i : Nat) :
    admitTime capacity interval arrival i + interval ≤
      admitTime capacity interval arrival (i + capacity) := by
  obtain ⟨c, rfl⟩ : ∃ c, capacity = c + 1 := ⟨capacity - 1, by omega⟩
  have hi : i + (c + 1) = (i + c) + 1 := rfl
  rw [hi, admitTime, dif_pos ⟨hC, by omega⟩]
  have hsub : i + c + 1 - (c + 1) = i := by omega
  rw [hsub]
  exact le_trans (le_max_right _ _) (le_max_right _ _)

/-- At most `capacity` grants fall in any window of length `interval`. -/
theorem admitTime_window (capacity interval : Nat) (arrival : Nat → Nat)
    (hC : 0 < capacity) (N t : Nat) :
    ((Finset.range N).filter (fun i =>
      t ≤ admitTime capacity interval arrival i ∧
      admitTime capacity interval arrival i < t + interval)).card ≤ capacity := by
  by_contra hcon
  push_neg at hcon
  set S := (Finset.range N).filter (fun i =>
    t ≤ admitTime capacity interval arrival i ∧
    admitTime capacity interval arrival i < t + interval) with hS
  have hne : S.Nonempty := Finset.card_pos.1 (by omega)
  have hminmem := S.min'_mem hne
  have hmaxmem := S.max'_mem hne
  have hsub : S ⊆ Finset.Icc (S.min' hne) (S.max' hne) := by
    intro x hx
    exact Finset.mem_Icc.2 ⟨S.min'_le x hx, S.le_max' x hx⟩
  have hcard : S.card ≤ S.max' hne + 1 - S.min' hne := by
    have h := Finset.card_le_card hsub
    simpa [Nat.card_Icc] using h
  have hgap : S.min' hne + capacity ≤ S.max' hne := by omega
  have h1 : admitTime capacity interval arrival (S.min' hne) + interval ≤
      admitTime capacity interval arrival (S.max' hne) :=
    le_trans (admitTime_add_capacity capacity interval arrival hC (S.min' hne))
      (admitTime_mono capacity interval arrival hgap)
  have hminS : t ≤ admitTime capacity interval arrival (S.min' hne) :=
    (Finset.mem_filter.1 hminmem).2.1
  have hmaxS : admitTime capacity interval arrival (S.max' hne) <
      t + interval := (Finset.mem_filter.1 hmaxmem).2.2
  omega

/-- Claim C9 (with the rate limiter modelled from the spec): with the
capacity and interval the `Vndb` constructor hands to its rate limiter, the
number of command dispatches admitted within any sliding window of length
the interval never exceeds the capacity, grants are monotone in arrival
order (FIFO), and no request is granted before it arrives. -/
theorem C9_rate_limit_fifo :
    ∀ (settings : Settings) (arrival : Nat → Nat) (N t : Nat),
      0 < (limiter settings).1 →
      ((Finset.range N).filter (fun i =>
        t ≤ admitTime (limiter settings).1 (limiter settings).2 arrival i ∧
        admitTime (limiter settings).1 (limiter settings).2 arrival i <
          t + (limiter settings).2)).card ≤ (limiter settings).1 ∧
      Monotone (admitTime (limiter settings).1 (limiter settings).2 arrival) ∧
      (∀ i, arrival i ≤
        admitTime (limiter settings).1 (limiter settings).2 arrival i) := by
  intro settings arrival N t hC
  exact ⟨admitTime_window _ _ arrival hC N t,
    admitTime_mono _ _ arrival,
    fun i => arrival_le_admitTime _ _ arrival i⟩

/-- Closed witness for claim C9, at the default settings (capacity 20,
interval 60000). -/
theorem C9_rate_limit_fifo_witness :
    0 < (limiter defaultSettings).1 ∧
    (((Finset.range 3).filter (fun i =>
      0 ≤ admitTime (limiter defaultSettings).1 (limiter defaultSettings).2
        (fun _ => 0) i ∧
      admitTime (limiter defaultSettings).1 (limiter defaultSettings).2
        (fun _ => 0) i <
        0 + (limiter defaultSettings).2)).card ≤ (limiter defaultSettings).1 ∧
    Monotone (admitTime (limiter defaultSettings).1
      (limiter defaultSettings).2 (fun _ => 0)) ∧
    (∀ i, (fun _ => 0 : Nat → Nat) i ≤
      admitTime (limiter defaultSettings).1 (limiter defaultSettings).2
        (fun _ => 0) i)) :=
  ⟨by decide, C9_rate_limit_fifo defaultSettings (fun _ => 0) 3 0 (by decide)⟩

end Noshiro
